import Mathlib

set_option autoImplicit false

/-! Shallow embedding of the wrt ticket-automation workflow
(`.ai/flows/base_dag.py`, `.ai/flows/component_flow.py` and the four nodes in
`.ai/nodes/`).  The Run State is a Python dict threaded through a small
state-machine graph; we model it as an association list of string keys to a
sum type of the Python values the workflow actually stores. -/

/-- Python values stored in the workflow Run State dict: strings, booleans,
integers (non-negative in this system) and lists of strings. -/
inductive Val where
  | str (s : String)
  | bool (b : Bool)
  | nat (n : Nat)
  | strList (l : List String)
deriving DecidableEq

/-- Run State: a Python dict with string keys, modelled as an association list
with unique keys maintained by `Dict.insert`. -/
abbrev Dict := List (String × Val)

/-- Python `d[k]` / `d.get(k)`: first binding of `k`, if any. -/
def Dict.get (d : Dict) (k : String) : Option Val :=
  match d with
  | [] => none
  | (k', v) :: rest => if k' = k then some v else Dict.get rest k

/-- Python `{**d, k: v}` key update: replaces the value of an existing key in
place, appends a new key at the end. -/
def Dict.insert (d : Dict) (k : String) (v : Val) : Dict :=
  match d with
  | [] => [(k, v)]
  | (k', v') :: rest => if k' = k then (k, v) :: rest else (k', v') :: Dict.insert rest k v

/-- Python truthiness of a stored value (`if not cmd`, `s.get("green", False)`). -/
def Val.truthy : Val → Bool
  | .str s => s != ""
  | .bool b => b
  | .nat n => n != 0
  | .strList l => !l.isEmpty

/-- Python `d.get(k, dflt)`. -/
def pyGet (d : Dict) (k : String) (dflt : Val) : Val :=
  (d.get k).getD dflt

/-- Routing predicate of the conditional edge out of the validate node,
`base_dag.py` line 18: `lambda s: "code" if not s.get("green", False) else "pr"`. -/
def route (s : Dict) : String :=
  if !(pyGet s "green" (Val.bool false)).truthy then "code" else "pr"

/-! ## Validator (`validate_node.py`) -/

/-- Fixed ordered list of check names, `validate_node.py` line 6. -/
def CMD_KEYS : List String := ["std_build", "nostd_build", "test", "clippy"]

/-- A check is configured when its key holds a truthy command value
(`cmd = cfg.get(key); if not cmd: continue`). -/
def checkConfigured (s : Dict) (k : String) : Bool :=
  match s.get k with
  | some v => v.truthy
  | none => false

/-- Outcome of running check `k`-s configured command under execution oracle
`exec` (the oracle stands for `_run`, i.e. the exit status of the subprocess). -/
def checkExecOk (s : Dict) (exec : Val → Bool) (k : String) : Bool :=
  match s.get k with
  | some v => exec v
  | none => false

/-- Accumulator of the check loop: the `passed` and `failed` lists of the
source, plus the list of checks actually executed (the log files written). -/
structure ValidateAcc where
  passed : List String
  failed : List String
  executed : List String
deriving DecidableEq

/-- One iteration of the `for key in CMD_KEYS` loop of `validate_node`. -/
def validateStep (s : Dict) (exec : Val → Bool) (acc : ValidateAcc) (key : String) :
    ValidateAcc :=
  match s.get key with
  | none => acc
  | some cmd =>
    if cmd.truthy then
      if exec cmd then
        { acc with passed := acc.passed ++ [key], executed := acc.executed ++ [key] }
      else
        { acc with failed := acc.failed ++ [key], executed := acc.executed ++ [key] }
    else acc

/-- The check loop of `validate_node` over `CMD_KEYS`. -/
def validateChecks (s : Dict) (exec : Val → Bool) : ValidateAcc :=
  CMD_KEYS.foldl (validateStep s exec) ⟨[], [], []⟩

/-- validate_node (`validate_node.py` lines 16-34), parametrised by the
execution oracle.  The `cfg["ticket"]` / `cfg["crate"]` lookups raise
`KeyError` when the key is absent, modelled as `none`.  The second component
of the result is the list of checks executed (log files written); the first is
the returned dict `{**state, "green": green, "validate_passed": passed,
"validate_failed": failed}`. -/
def validate_node (s : Dict) (exec : Val → Bool) : Option (Dict × List String) :=
  match s.get "ticket", s.get "crate" with
  | some _, some _ =>
    let acc := validateChecks s exec
    let green := acc.failed.length == 0
    some ((((s.insert "green" (Val.bool green)).insert "validate_passed"
      (Val.strList acc.passed)).insert "validate_failed" (Val.strList acc.failed)),
      acc.executed)
  | _, _ => none

/-- The checks that are actually configured, in `CMD_KEYS` order. -/
def configuredKeys (s : Dict) : List String :=
  CMD_KEYS.filter (checkConfigured s)

/-! ## Planner (`plan_node.py`) -/

/-- Fixed planning instruction, `plan_node.py` lines 37-39. -/
def PROMPT : String :=
  "You are the planning node for **wrt**. Output JSON \x7b\"tasks\": [...]\x7d"

/-- plan_node (`plan_node.py` lines 49-55).  `fetchBody` is the outcome of
`_body` (lines 41-47), which runs outside the `try` block, so a tracker
failure there (network error, or `int(issue)` on a non-numeric ticket)
propagates out of the node; `chat` is the text-generation collaborator and
`parseTasks` models `json.loads(...)["tasks"]` on its output.  Only the
generation/parsing steps are guarded by `try: ... except: tasks = ["(LLM
failed)"]`. -/
def plan_node (s : Dict) (fetchBody : Except Unit String)
    (chat : String → Except Unit String)
    (parseTasks : String → Option (List String)) : Except Unit Dict :=
  match fetchBody with
  | .error e => .error e
  | .ok body =>
    let tasks :=
      match chat (PROMPT ++ "\n\n" ++ body) with
      | .error _ => ["(LLM failed)"]
      | .ok txt =>
        match parseTasks txt with
        | none => ["(LLM failed)"]
        | some ts => ts
    .ok (s.insert "plan" (Val.strList tasks))

/-! ## Coder (`code_node.py`) -/

/-- Recursion core of Python `str.split(sep)` for a non-empty separator on
character lists: leftmost non-overlapping matches.  `fuel` only bounds the
recursion (any `fuel ≥ l.length` computes the split, each step consumes at
least one character). -/
def splitGo (sep : List Char) : Nat → List Char → List (List Char)
  | 0, l => [l]
  | fuel + 1, l =>
    match l with
    | [] => [[]]
    | c :: cs =>
      if sep.isPrefixOf (c :: cs) then
        [] :: splitGo sep fuel ((c :: cs).drop sep.length)
      else
        match splitGo sep fuel cs with
        | [] => [[c]]
        | r :: rs => (c :: r) :: rs

/-- Python `str.split(sep)` for a non-empty separator, on explicit character
lists. -/
def splitOnL (sep : List Char) (l : List Char) : List (List Char) :=
  if sep.length = 0 then [l] else splitGo sep l.length l

/-- Characters Python `str.strip()` removes (ASCII whitespace). -/
def pyIsSpace (c : Char) : Bool :=
  c = ' ' || c = '\t' || c = '\n' || c = '\r' || c = '\x0b' || c = '\x0c'

/-- Python `not diff.strip()`: every character is whitespace. -/
def isBlank (l : List Char) : Bool :=
  l.all pyIsSpace

def TAG_OPEN : List Char := ['<', 'd', 'i', 'f', 'f', '>']

def TAG_CLOSE : List Char := ['<', '/', 'd', 'i', 'f', 'f', '>']

/-- Tag extraction of `code_node.py` line 53:
`diff.split("<diff>")[-1].split("</diff>")[0]`. -/
def extractDiff (completion : List Char) : List Char :=
  (splitOnL TAG_CLOSE ((splitOnL TAG_OPEN completion).getLastD [])).headD []

/-- Kind of one line of a unified-diff hunk (the `unidiff` line types). -/
inductive LineKind where
  | context
  | added
  | removed
deriving DecidableEq

/-- One line of a hunk; `value` is the line text (newline included), as in
`unidiff`-s `Line.value`. -/
structure PLine where
  kind : LineKind
  value : String
deriving DecidableEq

/-- One hunk of a unified diff: iterating it yields all of its lines (context,
added and removed, interleaved in file order), as iterating a `unidiff.Hunk`
does. -/
structure Hunk where
  source_start : Nat
  source_length : Nat
  lines : List PLine
deriving DecidableEq

/-- One file entry of a parsed patch (`unidiff.PatchedFile`). -/
structure PFile where
  path : String
  is_removed_file : Bool
  hunks : List Hunk
deriving DecidableEq

/-- Python list-slice assignment `l[a:b] = repl` for `0 ≤ a ≤ b` (indices
clamp at the list length; the negative-index case `source_start = 0` of the
slice in `_apply` is not modelled, all inputs used here have
`source_start ≥ 1`). -/
def spliceList (l : List String) (a b : Nat) (repl : List String) : List String :=
  l.take a ++ repl ++ l.drop b

/-- One iteration of the hunk loop of `_apply` (`code_node.py` lines 28-29):
`lines[h.source_start-1 : h.source_start-1+h.source_length] = [l.value for l
in h]` — the replacement is the values of ALL lines of the hunk. -/
def applyHunk (lines : List String) (h : Hunk) : List String :=
  spliceList lines (h.source_start - 1) (h.source_start - 1 + h.source_length)
    (h.lines.map PLine.value)

/-- The hunk loop of `_apply` for one file. -/
def applyFileHunks (content : List String) (hunks : List Hunk) : List String :=
  hunks.foldl applyHunk content

/-- Side effects of the Coder on the working tree and repository. -/
inductive Effect where
  | deleteFile (path : String)
  | writeFile (path : String) (content : List String)
  | stageAll
  | commitMsg (msg : String)
deriving DecidableEq

/-- The file loop of `_apply` (`code_node.py` lines 21-31) over a parsed patch:
a removed file is unlinked (missing-file tolerant), otherwise the file is read
(empty if absent), its hunks spliced in order, and the result written.  The
state is the working tree (path to line list); the effect list records writes
and deletions. -/
def applyPatch (fs : String → Option (List String)) (pfs : List PFile) :
    (String → Option (List String)) × List Effect :=
  pfs.foldl (fun acc pf =>
    if pf.is_removed_file then
      (fun p => if p = pf.path then none else acc.1 p,
       acc.2 ++ [Effect.deleteFile pf.path])
    else
      let txt := (acc.1 pf.path).getD []
      let new := applyFileHunks txt pf.hunks
      (fun p => if p = pf.path then some new else acc.1 p,
       acc.2 ++ [Effect.writeFile pf.path new]))
    (fs, [])

/-- Label-to-commit-type table of `_commit` (`code_node.py` line 35). -/
def label2type : List (String × String) :=
  [("feat", "feat"), ("fix", "fix"), ("bug", "fix"), ("refactor", "refactor"),
   ("docs", "docs"), ("test", "test")]

/-- Python `dict.get(k, dflt)` on a string-to-string table. -/
def lookupStr (m : List (String × String)) (k : String) : Option String :=
  match m with
  | [] => none
  | (k', v) :: rest => if k' = k then some v else lookupStr rest k

/-- Commit type of `_commit` (`code_node.py` lines 35-41): `labels = none`
when no tracker is configured (`GH_TOKEN` unset, `gh = None`); otherwise the
loop `for lab in issue.labels: ctype = label2type.get(lab.name.lower(),
ctype)` folds over the issue labels starting from "chore". -/
def commitType (labels : Option (List String)) : String :=
  match labels with
  | none => "chore"
  | some ls => ls.foldl (fun ct lab => (lookupStr label2type lab.toLower).getD ct) "chore"

/-- Python `re.sub(r"[\r\n]", " ", s)`: each CR or LF becomes one space. -/
def subNewlines (s : String) : String :=
  String.mk (s.data.map (fun c => if c = '\r' || c = '\n' then ' ' else c))

/-- Commit subject of `_commit` (`code_node.py` line 42):
`re.sub(r"[\r\n]", " ", plan[0])[:50]`. -/
def commitSubject (plan0 : String) : String :=
  (subNewlines plan0).take 50

/-- Commit message of `_commit` (`code_node.py` line 43):
`f"{ctype}({crate}): {subj}"`. -/
def commitMessage (labels : Option (List String)) (crate : String) (plan0 : String) :
    String :=
  commitType labels ++ "(" ++ crate ++ "): " ++ commitSubject plan0

/-- code_node (`code_node.py` lines 45-56).  `completion` is the raw text
returned by the generation collaborator; `parse` models `unidiff.PatchSet` on
the extracted diff; `fs` is the working tree; `labels` the tracker issue
labels (none when `GH_TOKEN` is unset).  `state["plan"]` / `state["crate"]`
raise `KeyError` when absent (modelled as `error`), and `plan[0]` in
`_commit` raises `IndexError` on an empty plan.  The node returns the input
state itself (`return state`) together with the effect trace. -/
def code_node (s : Dict) (completion : List Char)
    (parse : List Char → List PFile) (fs : String → Option (List String))
    (labels : Option (List String)) : Except Unit (Dict × List Effect) :=
  match s.get "plan", s.get "crate" with
  | some (Val.strList plan), some (Val.str crate) =>
    let diff := extractDiff completion
    if isBlank diff then Except.ok (s, [])
    else
      match plan with
      | [] => Except.error ()
      | p0 :: _ =>
        Except.ok (s, (applyPatch fs (parse diff)).2 ++ [Effect.stageAll]
          ++ [Effect.commitMsg (commitMessage labels crate p0)])
  | _, _ => Except.error ()

/-! ## Publisher (`pr_node.py`) -/

/-- Environment variables read by pr_node. -/
structure PrEnv where
  githubRepository : Option String
  ghToken : Option String
  githubHeadRef : Option String
deriving DecidableEq

/-- Calls pr_node issues against the pull-request tracker. -/
inductive PrEffect where
  | update (number : Nat)
  | create (branch : String)
deriving DecidableEq

/-- Branch name of `pr_node.py` line 14:
`os.getenv("GITHUB_HEAD_REF", "auto/" + state["ticket"])`.  Python evaluates
the default argument eagerly, so `state["ticket"]` must exist and be a string
even when the environment variable is set; `none` models the raised error. -/
def prBranch (s : Dict) (env : PrEnv) : Option String :=
  match s.get "ticket" with
  | some (Val.str t) => some (env.githubHeadRef.getD ("auto/" ++ t))
  | _ => none

/-- pr_node (`pr_node.py` lines 10-44), parametrised by the tracker's
response to the pull listing for a branch (`listPulls`, the PR numbers of
open requests with that head).  `os.environ["GITHUB_REPOSITORY"]` and
`os.environ["GH_TOKEN"]` raise at node execution time when unset (modelled
as `error`); the body rendering needs `ticket`, `crate`, a `validate_passed`
list (membership tests) and `validate_failed` — the rendered markdown body
and title strings themselves are external-collaborator output and are not
modelled.  A non-empty listing leads to exactly one update call on the first
listed request; an empty one to exactly one draft-create call.  The node
returns the input state itself (`return state`). -/
def pr_node (s : Dict) (env : PrEnv) (listPulls : String → List Nat) :
    Except Unit (Dict × List PrEffect) :=
  match env.githubRepository, env.ghToken with
  | some _, some _ =>
    match prBranch s env, s.get "crate", s.get "validate_passed",
        s.get "validate_failed" with
    | some branch, some _, some (Val.strList _), some _ =>
      match listPulls branch with
      | [] => Except.ok (s, [PrEffect.create branch])
      | n :: _ => Except.ok (s, [PrEffect.update n])
    | _, _, _, _ => Except.error ()
  | _, _ => Except.error ()

/-! ## Workflow graph and engine (`base_dag.py`, spec section 4.1) -/

/-- The four nodes of the workflow graph. -/
inductive NodeId where
  | plan
  | code
  | validate
  | pr
deriving DecidableEq

/-- Successor function encoding the edges of `base_dag.py` lines 13-20:
`plan → code`, `code → validate`, the conditional edge out of `validate`
selecting `code` or `pr` through `route` on the post-merge state, and
`pr → END` (`none` is the terminal sentinel). -/
def nextAfter (n : NodeId) (s : Dict) : Option NodeId :=
  match n with
  | .plan => some .code
  | .code => some .validate
  | .validate => if route s = "code" then some .code else some .pr
  | .pr => none

/-- Modelled from the spec: the Engine run loop (spec section 4.1) of the
`langgraph` `StateGraph.compile()/invoke()` machinery, which is not part of
this repository's sources.  Starting at a node, invoke the node on the
current state (the node sees its own visit count through `impl`, so a
stateful collaborator can be expressed), abort on a node failure, otherwise
follow `nextAfter` on the post-merge state until the terminal sentinel.
`fuel` bounds the number of steps (`none` = not yet terminated); the result
carries the trace of invoked nodes. -/
def runE (impl : NodeId → Nat → Dict → Except Unit Dict) :
    Nat → NodeId → Dict → List NodeId → Option (List NodeId × Except Unit Dict)
  | 0, _, _, _ => none
  | fuel + 1, n, s, tr =>
    match impl n (tr.count n) s with
    | .error e => some (tr ++ [n], .error e)
    | .ok s' =>
      match nextAfter n s' with
      | none => some (tr ++ [n], .ok s')
      | some n' => runE impl fuel n' s' (tr ++ [n])

/-- Startup of a flow file (`component_flow.py` lines 4-10): read the profile
section out of the parsed configuration (a missing profile raises `KeyError`
at startup, before `workflow.invoke` runs any node) and build the initial
state `{"ticket": os.getenv("TICKET", "local"), **cfg}` — the profile entries
are merged over the ticket binding. -/
def flow_startup (profiles : List (String × Dict)) (profile : String)
    (ticketEnv : Option String) : Except Unit Dict :=
  match profiles.find? (fun p => p.1 == profile) with
  | none => Except.error ()
  | some (_, cfg) =>
    Except.ok (cfg.foldl (fun d p => d.insert p.1 p.2)
      [("ticket", Val.str (ticketEnv.getD "local"))])

/-! ## Spec-side comparison definitions and concrete instances -/

/-- Modelled from the spec's words (claim C4): the lines of a hunk that belong
to the target version of the file are its context and added lines, in order
(`unidiff`-s `target_lines`). -/
def targetLines (h : Hunk) : List String :=
  (h.lines.filter (fun l => l.kind != LineKind.removed)).map PLine.value

/-- Modelled from the spec's words (claim C4): apply each hunk in order by
replacing the addressed source line range with the hunk's target lines. -/
def applyFileHunksSpec (content : List String) (hunks : List Hunk) : List String :=
  hunks.foldl (fun lines h =>
    spliceList lines (h.source_start - 1) (h.source_start - 1 + h.source_length)
      (targetLines h)) content

/-- A three-line file used to exercise the hunk application. -/
def demoContent : List String := ["a\n", "b\n", "c\n"]

/-- A single well-formed deletion hunk for `demoContent`
(`@@ -1,3 +1,2 @@`, context a, remove b, context c). -/
def demoHunk : Hunk :=
  ⟨1, 3, [⟨LineKind.context, "a\n"⟩, ⟨LineKind.removed, "b\n"⟩,
          ⟨LineKind.context, "c\n"⟩]⟩

/-- Modelled from the spec's words (claim C7): the label-to-type mapping table
of section 4.3 as an explicit decision function. -/
def specLabelType (lab : String) : Option String :=
  if lab = "feat" then some "feat"
  else if lab = "fix" then some "fix"
  else if lab = "bug" then some "fix"
  else if lab = "refactor" then some "refactor"
  else if lab = "docs" then some "docs"
  else if lab = "test" then some "test"
  else none

/-- Modelled from the spec's words (claim C7): commit type obtained from the
labels through the mapping, defaulting to "chore" when no label matches or no
tracker is configured. -/
def commitTypeSpec (labels : Option (List String)) : String :=
  match labels with
  | none => "chore"
  | some ls => ls.foldl (fun ct lab => (specLabelType lab.toLower).getD ct) "chore"

/-- Modelled from the spec's words (claim C7): subject as the first plan
element with newlines stripped (removed) and truncated to 50 characters. -/
def commitSubjectSpec (plan0 : String) : String :=
  (String.mk (plan0.data.filter (fun c => !(c = '\r' || c = '\n')))).take 50

/-- Modelled from the spec's words (claim C7): the commit message
`type(scope): subject` with the subject's newlines removed. -/
def commitMessageSpec (labels : Option (List String)) (crate : String)
    (plan0 : String) : String :=
  commitTypeSpec labels ++ "(" ++ crate ++ "): " ++ commitSubjectSpec plan0

/-- Amended reading of claim C7: as `commitMessageSpec`, but each CR/LF of
the subject is replaced by one space (what `re.sub(r"[\r\n]", " ", ...)`
does), rather than removed. -/
def commitMessageAmended (labels : Option (List String)) (crate : String)
    (plan0 : String) : String :=
  commitTypeSpec labels ++ "(" ++ crate ++ "): " ++
    (String.mk (plan0.data.map (fun c => if c = '\r' || c = '\n' then ' ' else c))).take 50

/-- Does a tracker call update an existing request? -/
def PrEffect.isUpdate : PrEffect → Bool
  | .update _ => true
  | .create _ => false

/-- Does a tracker call create a new request? -/
def PrEffect.isCreate : PrEffect → Bool
  | .update _ => false
  | .create _ => true

/-- Node implementations where the validate node reports green exactly on its
third visit (visit counts 0 and 1 give false, visit count 2 gives true) and
every other node is the identity. -/
def demoValImpl : NodeId → Nat → Dict → Except Unit Dict :=
  fun n k s =>
    match n with
    | NodeId.validate => Except.ok (s.insert "green" (Val.bool (k == 2)))
    | _ => Except.ok s

/-- Environment with no tracker credentials set. -/
def noCredEnv : PrEnv := ⟨none, none, none⟩

/-- Initial state of a concrete run: ticket and crate from the profile plus
one configured check. -/
def demoS0 : Dict :=
  [("ticket", Val.str "42"), ("crate", Val.str "wrt"), ("std_build", Val.str "true")]

/-- The four nodes wired together as in `base_dag.py`, with no tracker
credentials in the environment, a failing generation backend for the planner,
a whitespace-only completion for the coder, and an execution oracle under
which the configured check passes. -/
def demoRunImpl : NodeId → Nat → Dict → Except Unit Dict :=
  fun n _ s =>
    match n with
    | NodeId.plan =>
      plan_node s (Except.ok "(local)") (fun _ => Except.error ()) (fun _ => none)
    | NodeId.code =>
      (code_node s [' '] (fun _ => []) (fun _ => none) none).map Prod.fst
    | NodeId.validate =>
      (validate_node s (fun v => v == Val.str "true")).elim (Except.error ())
        (fun r => Except.ok r.1)
    | NodeId.pr =>
      (pr_node s noCredEnv (fun _ => [])).map Prod.fst

/-- A node output `s'` preserves all fields of the input `s` outside the
node's declared output fields: no key is deleted, and keys outside
`declared` keep their value. -/
def preservesFields (s s' : Dict) (declared : List String) : Prop :=
  ∀ k, (s.get k).isSome = true →
    (s'.get k).isSome = true ∧ (k ∉ declared → s'.get k = s.get k)

/-- Decidable equality of node results, to evaluate concrete runs. -/
instance exceptDecidableEq {ε α : Type} [DecidableEq ε] [DecidableEq α] :
    DecidableEq (Except ε α) := fun a b =>
  match a, b with
  | .error e1, .error e2 =>
    if h : e1 = e2 then isTrue (by rw [h]) else isFalse (fun hc => h (Except.error.inj hc))
  | .error _, .ok _ => isFalse (fun hc => Except.noConfusion hc)
  | .ok _, .error _ => isFalse (fun hc => Except.noConfusion hc)
  | .ok a1, .ok a2 =>
    if h : a1 = a2 then isTrue (by rw [h]) else isFalse (fun hc => h (Except.ok.inj hc))

/-! ## Helper lemmas -/

theorem Dict.get_insert_self (d : Dict) (k : String) (v : Val) :
    (d.insert k v).get k = some v := by
  induction d with
  | nil => simp [Dict.insert, Dict.get]
  | cons p rest ih =>
    by_cases h : p.1 = k <;> simp [Dict.insert, Dict.get, h, ih]

theorem Dict.get_insert_ne (d : Dict) (k k' : String) (v : Val) (h : k ≠ k') :
    (d.insert k v).get k' = d.get k' := by
  induction d with
  | nil => simp [Dict.insert, Dict.get, h]
  | cons p rest ih =>
    by_cases hp : p.1 = k
    · simp [Dict.insert, Dict.get, hp, h]
    · simp [Dict.insert, Dict.get, hp, ih]

theorem Dict.get_insert_isSome (d : Dict) (k0 : String) (v : Val) (k : String)
    (h : (d.get k).isSome = true) : ((d.insert k0 v).get k).isSome = true := by
  by_cases hk : k0 = k
  · subst hk; simp [Dict.get_insert_self]
  · rwa [Dict.get_insert_ne _ _ _ _ hk]

theorem validateStep_foldl (s : Dict) (exec : Val → Bool) :
    ∀ (keys : List String) (acc : ValidateAcc),
      keys.foldl (validateStep s exec) acc =
        ⟨acc.passed ++ keys.filter (fun k => checkConfigured s k && checkExecOk s exec k),
         acc.failed ++ keys.filter (fun k => checkConfigured s k && !checkExecOk s exec k),
         acc.executed ++ keys.filter (checkConfigured s)⟩ := by
  intro keys
  induction keys with
  | nil => intro acc; simp
  | cons k ks ih =>
    intro acc
    simp only [List.foldl_cons, ih]
    cases hk : s.get k with
    | none =>
      simp [validateStep, checkConfigured, checkExecOk, hk]
    | some cmd =>
      by_cases ht : cmd.truthy
      · by_cases he : exec cmd
        · simp [validateStep, checkConfigured, checkExecOk, hk, ht, he]
        · simp [validateStep, checkConfigured, checkExecOk, hk, ht, he]
      · simp [validateStep, checkConfigured, checkExecOk, hk, ht]

theorem validateChecks_eq (s : Dict) (exec : Val → Bool) :
    validateChecks s exec =
      ⟨CMD_KEYS.filter (fun k => checkConfigured s k && checkExecOk s exec k),
       CMD_KEYS.filter (fun k => checkConfigured s k && !checkExecOk s exec k),
       configuredKeys s⟩ := by
  simpa [validateChecks, configuredKeys] using validateStep_foldl s exec CMD_KEYS ⟨[], [], []⟩

theorem validate_node_eq (s : Dict) (exec : Val → Bool)
    (vt vc : Val) (hvt : s.get "ticket" = some vt) (hvc : s.get "crate" = some vc) :
    validate_node s exec =
      some ((((s.insert "green"
        (Val.bool ((validateChecks s exec).failed.length == 0))).insert
        "validate_passed" (Val.strList (validateChecks s exec).passed)).insert
        "validate_failed" (Val.strList (validateChecks s exec).failed)),
        (validateChecks s exec).executed) := by
  simp [validate_node, hvt, hvc]

/-! ## Claim C1 -/

/-- C1: for every state presented to the conditional edge out of Validator
(where `green` is either absent or the boolean the Validator wrote), the
routing predicate selects "pr" (Publisher) exactly when `green` is true, and
selects "code" (Coder) in every other case, including `green` false or
absent. -/
theorem routing_green_iff (s : Dict)
    (h : s.get "green" = none ∨ ∃ b, s.get "green" = some (Val.bool b)) :
    (route s = "pr" ↔ s.get "green" = some (Val.bool true)) ∧
    (route s = "code" ↔ s.get "green" ≠ some (Val.bool true)) := by
  rcases h with h | ⟨b, h⟩
  · constructor <;> simp [route, pyGet, h, Val.truthy]
  · cases b <;> constructor <;> simp [route, pyGet, h, Val.truthy]

/-- Witness for C1 at a state with `green = true`. -/
theorem routing_green_iff_witness :
    (route [("green", Val.bool true)] = "pr" ↔
      Dict.get [("green", Val.bool true)] "green" = some (Val.bool true)) ∧
    (route [("green", Val.bool true)] = "code" ↔
      Dict.get [("green", Val.bool true)] "green" ≠ some (Val.bool true)) :=
  routing_green_iff [("green", Val.bool true)] (Or.inr ⟨true, rfl⟩)

/-! ## Claim C2 -/

/-- C2: for every state containing `ticket` and `crate` and every set F of
configured check names, if the configured commands fail exactly for the
checks in F, then the output dict has `validate_failed` equal (as a set) to
F, `validate_passed` equal to the configured checks minus F, `green` true iff
F is empty; unconfigured checks are in neither list and only the configured
checks are executed. -/
theorem validator_correct (s : Dict) (exec : Val → Bool) (F : List String)
    (ht : (s.get "ticket").isSome = true) (hc : (s.get "crate").isSome = true)
    (hF : ∀ k, k ∈ F → k ∈ configuredKeys s)
    (hexec : ∀ k, k ∈ configuredKeys s → (checkExecOk s exec k = false ↔ k ∈ F)) :
    ∃ out log pl fl,
      validate_node s exec = some (out, log) ∧
      out.get "validate_passed" = some (Val.strList pl) ∧
      out.get "validate_failed" = some (Val.strList fl) ∧
      (∀ k, k ∈ fl ↔ k ∈ F) ∧
      (∀ k, k ∈ pl ↔ k ∈ configuredKeys s ∧ k ∉ F) ∧
      out.get "green" = some (Val.bool F.isEmpty) ∧
      log = configuredKeys s := by
  obtain ⟨vt, hvt⟩ := Option.isSome_iff_exists.mp ht
  obtain ⟨vc, hvc⟩ := Option.isSome_iff_exists.mp hc
  have hvn := validate_node_eq s exec vt vc hvt hvc
  have hfl : ∀ k, k ∈ (validateChecks s exec).failed ↔ k ∈ F := by
    intro k
    rw [validateChecks_eq]
    simp only [List.mem_filter, Bool.and_eq_true, Bool.not_eq_true']
    constructor
    · rintro ⟨hkm, hkc, hke⟩
      exact (hexec k (by simp [configuredKeys, List.mem_filter, hkm, hkc])).mp hke
    · intro hkF
      have hcfg := hF k hkF
      simp only [configuredKeys, List.mem_filter] at hcfg
      exact ⟨hcfg.1, hcfg.2, (hexec k (hF k hkF)).mpr hkF⟩
  have hpl : ∀ k, k ∈ (validateChecks s exec).passed ↔ k ∈ configuredKeys s ∧ k ∉ F := by
    intro k
    rw [validateChecks_eq]
    simp only [List.mem_filter, Bool.and_eq_true]
    constructor
    · rintro ⟨hkm, hkc, hke⟩
      have hkcfg : k ∈ configuredKeys s := by
        simp [configuredKeys, List.mem_filter, hkm, hkc]
      refine ⟨hkcfg, fun hkF => ?_⟩
      have := (hexec k hkcfg).mpr hkF
      rw [this] at hke
      exact Bool.false_ne_true hke
    · rintro ⟨hkcfg, hkF⟩
      have hcfg := hkcfg
      simp only [configuredKeys, List.mem_filter] at hcfg
      refine ⟨hcfg.1, hcfg.2, ?_⟩
      by_contra hke
      exact hkF ((hexec k hkcfg).mp (Bool.not_eq_true _ ▸ hke))
  have hgreen : ((validateChecks s exec).failed.length == 0) = F.isEmpty := by
    cases hFc : F with
    | nil =>
      have : (validateChecks s exec).failed = [] := by
        rw [List.eq_nil_iff_forall_not_mem]
        intro k hk
        have := (hfl k).mp hk
        rw [hFc] at this
        exact (List.not_mem_nil k) this
      simp [this]
    | cons f fs =>
      have hf : f ∈ (validateChecks s exec).failed := by
        rw [hfl f, hFc]; exact List.mem_cons_self f fs
      have : (validateChecks s exec).failed ≠ [] := by
        intro hnil; rw [hnil] at hf; exact (List.not_mem_nil f) hf
      simp [List.isEmpty_iff, List.length_eq_zero, this]
  refine ⟨_, _, (validateChecks s exec).passed, (validateChecks s exec).failed,
    hvn, ?_, ?_, hfl, hpl, ?_, ?_⟩
  · rw [Dict.get_insert_ne _ _ _ _ (by decide), Dict.get_insert_self]
  · rw [Dict.get_insert_self]
  · rw [Dict.get_insert_ne _ _ _ _ (by decide),
      Dict.get_insert_ne _ _ _ _ (by decide), Dict.get_insert_self, hgreen]
  · rw [validateChecks_eq]

/-- Witness for C2: the concrete scenario of spec section 8 (`std_build`
passes, `nostd_build` fails, F = set of the failing check). -/
theorem validator_correct_witness :
    ∃ out log pl fl,
      validate_node [("ticket", Val.str "42"), ("crate", Val.str "wrt-decoder"),
          ("std_build", Val.str "true"), ("nostd_build", Val.str "false")]
          (fun v => v == Val.str "true") = some (out, log) ∧
      out.get "validate_passed" = some (Val.strList pl) ∧
      out.get "validate_failed" = some (Val.strList fl) ∧
      (∀ k, k ∈ fl ↔ k ∈ ["nostd_build"]) ∧
      (∀ k, k ∈ pl ↔ k ∈ configuredKeys [("ticket", Val.str "42"),
          ("crate", Val.str "wrt-decoder"), ("std_build", Val.str "true"),
          ("nostd_build", Val.str "false")] ∧ k ∉ ["nostd_build"]) ∧
      out.get "green" = some (Val.bool (["nostd_build"].isEmpty)) ∧
      log = configuredKeys [("ticket", Val.str "42"), ("crate", Val.str "wrt-decoder"),
          ("std_build", Val.str "true"), ("nostd_build", Val.str "false")] :=
  validator_correct _ (fun v => v == Val.str "true") ["nostd_build"]
    (by decide) (by decide) (by decide) (by decide)

/-! ## Claim C3 -/

theorem runE_step_cont (impl : NodeId → Nat → Dict → Except Unit Dict)
    (fuel : Nat) (n : NodeId) (s : Dict) (tr : List NodeId) (k : Nat) (s' : Dict)
    (n' : NodeId) (tr' : List NodeId) (hk : tr.count n = k)
    (h : impl n k s = Except.ok s') (hn : nextAfter n s' = some n')
    (htr : tr ++ [n] = tr') :
    runE impl (fuel + 1) n s tr = runE impl fuel n' s' tr' := by
  subst hk htr
  simp only [runE, h, hn]

theorem runE_step_end (impl : NodeId → Nat → Dict → Except Unit Dict)
    (fuel : Nat) (n : NodeId) (s : Dict) (tr : List NodeId) (k : Nat) (s' : Dict)
    (tr' : List NodeId) (hk : tr.count n = k)
    (h : impl n k s = Except.ok s') (hn : nextAfter n s' = none)
    (htr : tr ++ [n] = tr') :
    runE impl (fuel + 1) n s tr = some (tr', Except.ok s') := by
  subst hk htr
  simp only [runE, h, hn]

theorem nextAfter_validate_bool (s : Dict) (b : Bool)
    (h : s.get "green" = some (Val.bool b)) :
    nextAfter NodeId.validate s = some (if b then NodeId.pr else NodeId.code) := by
  cases b <;> simp [nextAfter, route, pyGet, h, Val.truthy]

/-- C3: in a run of the workflow graph whose Validator reports green = false
on its first two visits and green = true on its third (and whose nodes all
return normally), the engine invokes the plan node once, then loops Coder and
Validator three times each, invokes Publisher exactly once (Coder appears 3
times and Publisher once in the trace) and reaches the terminal sentinel. -/
theorem loop_three_visits (impl : NodeId → Nat → Dict → Except Unit Dict) (s₀ : Dict)
    (hok : ∀ n k s, ∃ s', impl n k s = Except.ok s')
    (hval : ∀ k s s', impl NodeId.validate k s = Except.ok s' →
      s'.get "green" = some (Val.bool (k == 2))) :
    ∃ sf, runE impl 10 NodeId.plan s₀ [] =
        some ([NodeId.plan, NodeId.code, NodeId.validate, NodeId.code,
          NodeId.validate, NodeId.code, NodeId.validate, NodeId.pr], Except.ok sf) ∧
      [NodeId.plan, NodeId.code, NodeId.validate, NodeId.code, NodeId.validate,
        NodeId.code, NodeId.validate, NodeId.pr].count NodeId.code = 3 ∧
      [NodeId.plan, NodeId.code, NodeId.validate, NodeId.code, NodeId.validate,
        NodeId.code, NodeId.validate, NodeId.pr].count NodeId.pr = 1 := by
  obtain ⟨s1, h1⟩ := hok NodeId.plan 0 s₀
  obtain ⟨s2, h2⟩ := hok NodeId.code 0 s1
  obtain ⟨s3, h3⟩ := hok NodeId.validate 0 s2
  obtain ⟨s4, h4⟩ := hok NodeId.code 1 s3
  obtain ⟨s5, h5⟩ := hok NodeId.validate 1 s4
  obtain ⟨s6, h6⟩ := hok NodeId.code 2 s5
  obtain ⟨s7, h7⟩ := hok NodeId.validate 2 s6
  obtain ⟨s8, h8⟩ := hok NodeId.pr 0 s7
  have g3 : nextAfter NodeId.validate s3 = some NodeId.code := by
    simpa using nextAfter_validate_bool s3 _ (hval 0 s2 s3 h3)
  have g5 : nextAfter NodeId.validate s5 = some NodeId.code := by
    simpa using nextAfter_validate_bool s5 _ (hval 1 s4 s5 h5)
  have g7 : nextAfter NodeId.validate s7 = some NodeId.pr := by
    simpa using nextAfter_validate_bool s7 _ (hval 2 s6 s7 h7)
  refine ⟨s8, ?_, rfl, rfl⟩
  rw [show (10 : Nat) = 9 + 1 from rfl,
    runE_step_cont impl 9 NodeId.plan s₀ [] 0 s1 NodeId.code
      [NodeId.plan] (by decide) h1 rfl rfl]
  rw [show (9 : Nat) = 8 + 1 from rfl,
    runE_step_cont impl 8 NodeId.code s1 [NodeId.plan] 0 s2 NodeId.validate
      [NodeId.plan, NodeId.code] (by decide) h2 rfl rfl]
  rw [show (8 : Nat) = 7 + 1 from rfl,
    runE_step_cont impl 7 NodeId.validate s2 [NodeId.plan, NodeId.code] 0 s3 NodeId.code
      [NodeId.plan, NodeId.code, NodeId.validate] (by decide) h3 g3 rfl]
  rw [show (7 : Nat) = 6 + 1 from rfl,
    runE_step_cont impl 6 NodeId.code s3 [NodeId.plan, NodeId.code, NodeId.validate]
      1 s4 NodeId.validate [NodeId.plan, NodeId.code, NodeId.validate, NodeId.code]
      (by decide) h4 rfl rfl]
  rw [show (6 : Nat) = 5 + 1 from rfl,
    runE_step_cont impl 5 NodeId.validate s4
      [NodeId.plan, NodeId.code, NodeId.validate, NodeId.code] 1 s5 NodeId.code
      [NodeId.plan, NodeId.code, NodeId.validate, NodeId.code, NodeId.validate]
      (by decide) h5 g5 rfl]
  rw [show (5 : Nat) = 4 + 1 from rfl,
    runE_step_cont impl 4 NodeId.code s5
      [NodeId.plan, NodeId.code, NodeId.validate, NodeId.code, NodeId.validate]
      2 s6 NodeId.validate
      [NodeId.plan, NodeId.code, NodeId.validate, NodeId.code, NodeId.validate,
        NodeId.code] (by decide) h6 rfl rfl]
  rw [show (4 : Nat) = 3 + 1 from rfl,
    runE_step_cont impl 3 NodeId.validate s6
      [NodeId.plan, NodeId.code, NodeId.validate, NodeId.code, NodeId.validate,
        NodeId.code] 2 s7 NodeId.pr
      [NodeId.plan, NodeId.code, NodeId.validate, NodeId.code, NodeId.validate,
        NodeId.code, NodeId.validate] (by decide) h7 g7 rfl]
  rw [show (3 : Nat) = 2 + 1 from rfl,
    runE_step_end impl 2 NodeId.pr s7
      [NodeId.plan, NodeId.code, NodeId.validate, NodeId.code, NodeId.validate,
        NodeId.code, NodeId.validate] 0 s8
      [NodeId.plan, NodeId.code, NodeId.validate, NodeId.code, NodeId.validate,
        NodeId.code, NodeId.validate, NodeId.pr] (by decide) h8 rfl rfl]

/-- Witness for C3: the concrete implementation `demoValImpl` satisfies both
hypotheses, and its run from the empty state produces the stated trace. -/
theorem loop_three_visits_witness :
    ∃ sf, runE demoValImpl 10 NodeId.plan [] [] =
        some ([NodeId.plan, NodeId.code, NodeId.validate, NodeId.code,
          NodeId.validate, NodeId.code, NodeId.validate, NodeId.pr], Except.ok sf) ∧
      [NodeId.plan, NodeId.code, NodeId.validate, NodeId.code, NodeId.validate,
        NodeId.code, NodeId.validate, NodeId.pr].count NodeId.code = 3 ∧
      [NodeId.plan, NodeId.code, NodeId.validate, NodeId.code, NodeId.validate,
        NodeId.code, NodeId.validate, NodeId.pr].count NodeId.pr = 1 :=
  loop_three_visits demoValImpl []
    (by intro n k s; cases n <;> exact ⟨_, rfl⟩)
    (by
      intro k s s' h
      simp only [demoValImpl] at h
      cases h
      exact Dict.get_insert_self s "green" (Val.bool (k == 2)))

/-! ## Claim C4 -/

/-- C4: `_apply` splices in the values of ALL lines of each hunk — context,
added and removed alike — so a deletion hunk leaves the removed line in the
file and the result does not equal the diff's target content.  On the
concrete three-line file and the single well-formed deletion hunk, the code's
application returns the file unchanged while the spec-described application
(replace the addressed range with the hunk's target lines) removes the middle
line; the two disagree. -/
theorem coder_apply_keeps_removed_lines :
    applyFileHunks demoContent [demoHunk] = ["a\n", "b\n", "c\n"] ∧
    applyFileHunksSpec demoContent [demoHunk] = ["a\n", "c\n"] ∧
    applyFileHunks demoContent [demoHunk] ≠ applyFileHunksSpec demoContent [demoHunk] := by
  refine ⟨rfl, rfl, ?_⟩
  decide

/-! ## Claim C5 -/

/-- C5 counterexample: a ticket-tracker collaborator whose body fetch fails
makes the Planner abort (the fetch runs outside the recovery block), so the
Planner does not return normally for every behavior of its collaborators. -/
theorem planner_aborts_on_tracker_failure :
    plan_node [] (Except.error ()) (fun _ => Except.ok "") (fun _ => none) =
      Except.error () := rfl

/-- C5 (amended): whenever the ticket-body fetch succeeds (in particular when
no tracker is configured), the Planner returns normally for every behavior of
the text-generation collaborator, and if generation fails or its output is
unparsable the plan is the single-element degraded plan `["(LLM failed)"]`. -/
theorem planner_fail_soft (s : Dict) (body : String)
    (chat : String → Except Unit String)
    (parseTasks : String → Option (List String)) :
    ∃ tasks, plan_node s (Except.ok body) chat parseTasks =
        Except.ok (s.insert "plan" (Val.strList tasks)) ∧
      ((chat (PROMPT ++ "\n\n" ++ body) = Except.error () ∨
        (∀ txt, chat (PROMPT ++ "\n\n" ++ body) = Except.ok txt → parseTasks txt = none)) →
        tasks = ["(LLM failed)"]) := by
  cases hchat : chat (PROMPT ++ "\n\n" ++ body) with
  | error e =>
    exact ⟨["(LLM failed)"], by simp [plan_node, hchat], fun _ => rfl⟩
  | ok txt =>
    cases hp : parseTasks txt with
    | none => exact ⟨["(LLM failed)"], by simp [plan_node, hchat, hp], fun _ => rfl⟩
    | some ts =>
      refine ⟨ts, by simp [plan_node, hchat, hp], ?_⟩
      rintro (h | h)
      · exact Except.noConfusion h
      · have h2 := h txt rfl
        rw [h2] at hp
        exact Option.noConfusion hp

/-- Witness for C5's amended theorem: with a successful body fetch and a
failing generation backend, the Planner returns the degraded plan. -/
theorem planner_fail_soft_witness :
    plan_node [] (Except.ok "b") (fun _ => Except.error ()) (fun _ => none) =
      Except.ok (Dict.insert [] "plan" (Val.strList ["(LLM failed)"])) := by
  obtain ⟨tasks, h1, h2⟩ :=
    planner_fail_soft [] "b" (fun _ => Except.error ()) (fun _ => none)
  rw [h2 (Or.inl rfl)] at h1
  exact h1

/-! ## Claim C6 -/

theorem splitGo_all_space (c0 : Char) (sep' : List Char)
    (hc0 : pyIsSpace c0 = false) :
    ∀ (fuel : Nat) (l : List Char), l.all pyIsSpace = true →
      splitGo (c0 :: sep') fuel l = [l] := by
  intro fuel
  induction fuel with
  | zero => intro l _; rfl
  | succ fuel ih =>
    intro l h
    match l with
    | [] => rfl
    | c :: cs =>
      simp only [List.all_cons, Bool.and_eq_true] at h
      have hne : (c0 == c) = false := by
        by_contra hb
        rw [Bool.not_eq_false, beq_iff_eq] at hb
        rw [hb] at hc0
        rw [hc0] at h
        exact Bool.false_ne_true h.1
      have hpre : (c0 :: sep').isPrefixOf (c :: cs) = false := by
        show (c0 == c && sep'.isPrefixOf cs) = false
        rw [hne, Bool.false_and]
      simp only [splitGo, hpre, Bool.false_eq_true, if_false, ih cs h.2]

theorem splitOnL_all_space (c0 : Char) (sep' : List Char)
    (hc0 : pyIsSpace c0 = false) :
    ∀ l : List Char, l.all pyIsSpace = true → splitOnL (c0 :: sep') l = [l] := by
  intro l h
  rw [splitOnL, if_neg (by simp)]
  exact splitGo_all_space c0 sep' hc0 l.length l h

theorem extractDiff_of_blank (completion : List Char) (h : isBlank completion = true) :
    extractDiff completion = completion := by
  have hall : completion.all pyIsSpace = true := h
  have h1 : splitOnL TAG_OPEN completion = [completion] :=
    splitOnL_all_space '<' ['d', 'i', 'f', 'f', '>'] (by decide) completion hall
  have h2 : splitOnL TAG_CLOSE completion = [completion] :=
    splitOnL_all_space '<' ['/', 'd', 'i', 'f', 'f', '>'] (by decide) completion hall
  simp only [extractDiff, TAG_OPEN, TAG_CLOSE] at *
  rw [h1, show [completion].getLastD [] = completion from rfl, h2]
  rfl

/-- C6: when the completion returned by the text-generation collaborator is
empty or whitespace-only, the Coder performs no file write, no file deletion
and no commit (its effect trace is empty) and returns the state unchanged.
The `plan`/`crate` fields are read before the generation call, so they are
assumed present as in every run that reaches the Coder. -/
theorem coder_blank_diff_noop (s : Dict) (completion : List Char)
    (parse : List Char → List PFile) (fs : String → Option (List String))
    (labels : Option (List String)) (plan : List String) (crate : String)
    (hp : s.get "plan" = some (Val.strList plan))
    (hc : s.get "crate" = some (Val.str crate))
    (hblank : isBlank completion = true) :
    code_node s completion parse fs labels = Except.ok (s, []) := by
  have hx : isBlank (extractDiff completion) = true := by
    rw [extractDiff_of_blank completion hblank]
    exact hblank
  simp [code_node, hp, hc, hx]

/-- Witness for C6 at a two-character whitespace completion. -/
theorem coder_blank_diff_noop_witness :
    code_node [("plan", Val.strList ["t"]), ("crate", Val.str "c")] [' ', '\n']
      (fun _ => []) (fun _ => none) none =
      Except.ok ([("plan", Val.strList ["t"]), ("crate", Val.str "c")], []) :=
  coder_blank_diff_noop _ _ _ _ _ ["t"] "c" rfl rfl (by decide)

/-! ## Claim C7 -/

theorem lookupStr_label2type (k : String) :
    lookupStr label2type k = specLabelType k := by
  by_cases h1 : k = "feat"
  · subst h1; rfl
  by_cases h2 : k = "fix"
  · subst h2; rfl
  by_cases h3 : k = "bug"
  · subst h3; rfl
  by_cases h4 : k = "refactor"
  · subst h4; rfl
  by_cases h5 : k = "docs"
  · subst h5; rfl
  by_cases h6 : k = "test"
  · subst h6; rfl
  simp [lookupStr, label2type, specLabelType, h1, h2, h3, h4, h5, h6,
    Ne.symm h1, Ne.symm h2, Ne.symm h3, Ne.symm h4, Ne.symm h5, Ne.symm h6]

theorem commitType_eq_spec (labels : Option (List String)) :
    commitType labels = commitTypeSpec labels := by
  cases labels with
  | none => rfl
  | some ls =>
    simp only [commitType, commitTypeSpec]
    induction ls using List.reverseRecOn with
    | nil => rfl
    | append_singleton xs x ih =>
      rw [List.foldl_append, List.foldl_append, ih]
      simp only [List.foldl_cons, List.foldl_nil, lookupStr_label2type]

set_option maxRecDepth 4000 in
/-- C7 counterexample: a first plan element containing a newline.  The code's
message replaces the newline by a space; stripping (removing) the newlines,
as the claim states, gives a different subject. -/
theorem commit_message_not_stripped :
    commitMessage none "c" "a\nb" = "chore(c): a b" ∧
    commitMessageSpec none "c" "a\nb" = "chore(c): ab" ∧
    commitMessage none "c" "a\nb" ≠ commitMessageSpec none "c" "a\nb" := by
  refine ⟨by decide, by decide, by decide⟩

/-- C7 (amended): the commit message is `type(scope): subject`, where the
type is obtained from the labels through the spec's mapping table (default
"chore" when no label matches or no tracker is configured) and the subject is
the first plan element with each CR/LF replaced by one space, truncated to 50
characters. -/
theorem commit_message_spec_amended (labels : Option (List String))
    (crate : String) (plan0 : String) :
    commitMessage labels crate plan0 = commitMessageAmended labels crate plan0 := by
  simp only [commitMessage, commitMessageAmended, commitSubject, subNewlines,
    commitType_eq_spec]

/-! ## Claim C8 -/

/-- C8: whenever the tracker reports an existing open request for the run's
branch, the Publisher issues exactly one update call and zero create calls
(and returns the state unchanged); in particular a second invocation for the
same branch with the open request still present again performs one update and
no create, so no duplicate request is ever created. -/
theorem publisher_updates_existing (s : Dict) (env : PrEnv)
    (listPulls : String → List Nat) (branch : String) (n : Nat) (ns : List Nat)
    (vr vt : String) (vc vf : Val) (vp : List String)
    (hrep : env.githubRepository = some vr) (htok : env.ghToken = some vt)
    (hbr : prBranch s env = some branch)
    (hcr : s.get "crate" = some vc)
    (hvp : s.get "validate_passed" = some (Val.strList vp))
    (hvf : s.get "validate_failed" = some vf)
    (hls : listPulls branch = n :: ns) :
    ∃ effs, pr_node s env listPulls = Except.ok (s, effs) ∧
      effs.countP PrEffect.isUpdate = 1 ∧ effs.countP PrEffect.isCreate = 0 := by
  refine ⟨[PrEffect.update n], ?_, rfl, rfl⟩
  simp [pr_node, hrep, htok, hbr, hcr, hvp, hvf, hls]

/-- Witness for C8: a state after a green validation, credentials present,
and one open request numbered 7 for the run's branch. -/
theorem publisher_updates_existing_witness :
    ∃ effs, pr_node
        [("ticket", Val.str "42"), ("crate", Val.str "wrt"),
         ("validate_passed", Val.strList ["std_build"]),
         ("validate_failed", Val.strList [])]
        ⟨some "own/repo", some "tok", some "auto/42"⟩ (fun _ => [7]) =
      Except.ok ([("ticket", Val.str "42"), ("crate", Val.str "wrt"),
         ("validate_passed", Val.strList ["std_build"]),
         ("validate_failed", Val.strList [])], effs) ∧
      effs.countP PrEffect.isUpdate = 1 ∧ effs.countP PrEffect.isCreate = 0 :=
  publisher_updates_existing _ _ _ "auto/42" 7 [] "own/repo" "tok"
    (Val.str "wrt") (Val.strList []) ["std_build"] rfl rfl rfl rfl rfl rfl rfl

/-! ## Claim C9 -/

theorem preservesFields_insert (s : Dict) (k0 : String) (v : Val) :
    preservesFields s (s.insert k0 v) [k0] := by
  intro k hk
  refine ⟨Dict.get_insert_isSome s k0 v k hk, fun hkd => ?_⟩
  exact Dict.get_insert_ne s k0 k v (fun heq => hkd (by simp [heq]))

theorem preservesFields_trans {s t u : Dict} {D1 D2 : List String}
    (h1 : preservesFields s t D1) (h2 : preservesFields t u D2) :
    preservesFields s u (D1 ++ D2) := by
  intro k hk
  obtain ⟨hs1, he1⟩ := h1 k hk
  obtain ⟨hs2, he2⟩ := h2 k hs1
  refine ⟨hs2, fun hkd => ?_⟩
  simp only [List.mem_append] at hkd
  push_neg at hkd
  rw [he2 hkd.2, he1 hkd.1]

theorem validate_node_some_eq (s : Dict) (exec : Val → Bool) (out : Dict)
    (log : List String) (h : validate_node s exec = some (out, log)) :
    out = ((s.insert "green"
        (Val.bool ((validateChecks s exec).failed.length == 0))).insert
      "validate_passed" (Val.strList (validateChecks s exec).passed)).insert
      "validate_failed" (Val.strList (validateChecks s exec).failed) ∧
    log = (validateChecks s exec).executed := by
  unfold validate_node at h
  split at h
  · simp only [Option.some.injEq, Prod.mk.injEq] at h
    exact ⟨h.1.symm, h.2.symm⟩
  · exact Option.noConfusion h

theorem validate_out_get (s : Dict) (exec : Val → Bool) (out : Dict)
    (log : List String) (h : validate_node s exec = some (out, log)) :
    out.get "green" = some (Val.bool ((validateChecks s exec).failed.length == 0)) ∧
    out.get "validate_passed" = some (Val.strList (validateChecks s exec).passed) ∧
    out.get "validate_failed" = some (Val.strList (validateChecks s exec).failed) := by
  obtain ⟨ho, -⟩ := validate_node_some_eq s exec out log h
  subst ho
  refine ⟨?_, ?_, ?_⟩
  · rw [Dict.get_insert_ne _ _ _ _ (by decide), Dict.get_insert_ne _ _ _ _ (by decide),
      Dict.get_insert_self]
  · rw [Dict.get_insert_ne _ _ _ _ (by decide), Dict.get_insert_self]
  · rw [Dict.get_insert_self]

/-- C9: no node deletes a field.  The Planner only adds/overwrites `plan`;
the Validator only adds/overwrites `green`, `validate_passed` and
`validate_failed`; the Coder and the Publisher return the input state itself;
and the Validator's three output fields are a function of the configured
check commands and the execution outcomes alone — fully recomputed on every
visit, never merged with previous values. -/
theorem nodes_preserve_fields :
    (∀ (s : Dict) (fb : Except Unit String) (chat : String → Except Unit String)
      (parse : String → Option (List String)) (out : Dict),
      plan_node s fb chat parse = Except.ok out → preservesFields s out ["plan"]) ∧
    (∀ (s : Dict) (exec : Val → Bool) (out : Dict) (log : List String),
      validate_node s exec = some (out, log) →
      preservesFields s out ["green", "validate_passed", "validate_failed"]) ∧
    (∀ (s : Dict) (completion : List Char) (parse : List Char → List PFile)
      (fs : String → Option (List String)) (labels : Option (List String))
      (out : Dict) (effs : List Effect),
      code_node s completion parse fs labels = Except.ok (out, effs) → out = s) ∧
    (∀ (s : Dict) (env : PrEnv) (listPulls : String → List Nat)
      (out : Dict) (effs : List PrEffect),
      pr_node s env listPulls = Except.ok (out, effs) → out = s) ∧
    (∀ (s₁ s₂ : Dict) (exec : Val → Bool) (out₁ out₂ : Dict)
      (log₁ log₂ : List String),
      (∀ k, k ∈ CMD_KEYS → s₁.get k = s₂.get k) →
      validate_node s₁ exec = some (out₁, log₁) →
      validate_node s₂ exec = some (out₂, log₂) →
      out₁.get "green" = out₂.get "green" ∧
      out₁.get "validate_passed" = out₂.get "validate_passed" ∧
      out₁.get "validate_failed" = out₂.get "validate_failed") := by
  refine ⟨?_, ?_, ?_, ?_, ?_⟩
  · intro s fb chat parse out h
    cases fb with
    | error e => exact Except.noConfusion h
    | ok body =>
      simp only [plan_node, Except.ok.injEq] at h
      rw [← h]
      exact preservesFields_insert s "plan" _
  · intro s exec out log h
    obtain ⟨ho, -⟩ := validate_node_some_eq s exec out log h
    rw [ho]
    exact preservesFields_trans (preservesFields_trans
      (preservesFields_insert s "green" _) (preservesFields_insert _ "validate_passed" _))
      (preservesFields_insert _ "validate_failed" _)
  · intro s completion parse fs labels out effs h
    unfold code_node at h
    split at h
    · rename_i plan crate heqp heqc
      dsimp only [] at h
      cases hb : isBlank (extractDiff completion) with
      | true =>
        rw [hb, if_pos rfl] at h
        simp only [Except.ok.injEq, Prod.mk.injEq] at h
        exact h.1.symm
      | false =>
        rw [hb, if_neg (by simp)] at h
        cases plan with
        | nil => exact Except.noConfusion h
        | cons p0 rest =>
          simp only [Except.ok.injEq, Prod.mk.injEq] at h
          exact h.1.symm
    · exact Except.noConfusion h
  · intro s env listPulls out effs h
    unfold pr_node at h
    repeat' split at h
    all_goals first
      | exact Except.noConfusion h
      | (simp only [Except.ok.injEq, Prod.mk.injEq] at h; exact h.1.symm)
  · intro s₁ s₂ exec out₁ out₂ log₁ log₂ hagree h₁ h₂
    have hva : validateChecks s₁ exec = validateChecks s₂ exec := by
      rw [validateChecks_eq, validateChecks_eq]
      have hcfg : ∀ k, k ∈ CMD_KEYS → checkConfigured s₁ k = checkConfigured s₂ k := by
        intro k hk
        simp [checkConfigured, hagree k hk]
      have hex : ∀ k, k ∈ CMD_KEYS →
          checkExecOk s₁ exec k = checkExecOk s₂ exec k := by
        intro k hk
        simp [checkExecOk, hagree k hk]
      have e1 : CMD_KEYS.filter (fun k => checkConfigured s₁ k && checkExecOk s₁ exec k) =
          CMD_KEYS.filter (fun k => checkConfigured s₂ k && checkExecOk s₂ exec k) :=
        List.filter_congr (fun k hk => by rw [hcfg k hk, hex k hk])
      have e2 : CMD_KEYS.filter
            (fun k => checkConfigured s₁ k && !checkExecOk s₁ exec k) =
          CMD_KEYS.filter (fun k => checkConfigured s₂ k && !checkExecOk s₂ exec k) :=
        List.filter_congr (fun k hk => by rw [hcfg k hk, hex k hk])
      have e3 : configuredKeys s₁ = configuredKeys s₂ := by
        unfold configuredKeys
        exact List.filter_congr (fun k hk => by rw [hcfg k hk])
      rw [e1, e2, e3]
    obtain ⟨g₁, p₁, f₁⟩ := validate_out_get s₁ exec out₁ log₁ h₁
    obtain ⟨g₂, p₂, f₂⟩ := validate_out_get s₂ exec out₂ log₂ h₂
    rw [g₁, g₂, p₁, p₂, f₁, f₂, hva]
    exact ⟨rfl, rfl, rfl⟩

/-- Witness for C9: the Planner's output on a concrete state preserves the
existing `ticket` field and only adds `plan`. -/
theorem nodes_preserve_fields_witness :
    preservesFields [("ticket", Val.str "42")]
      (Dict.insert [("ticket", Val.str "42")] "plan" (Val.strList ["(LLM failed)"]))
      ["plan"] :=
  nodes_preserve_fields.1 [("ticket", Val.str "42")] (Except.ok "b")
    (fun _ => Except.error ()) (fun _ => none) _ rfl

/-! ## Claim C10 -/

/-- C10 counterexample: with the tracker credentials missing from the
environment, the run does not fail at startup.  In the concrete wired run
`demoRunImpl` (no `GITHUB_REPOSITORY`/`GH_TOKEN`), the Planner, Coder and
Validator all execute normally and the failure first surfaces inside the
Publisher node, contradicting the claim that no node is invoked. -/
theorem missing_credentials_fail_inside_run :
    runE demoRunImpl 10 NodeId.plan demoS0 [] =
      some ([NodeId.plan, NodeId.code, NodeId.validate, NodeId.pr],
        Except.error ()) := by
  decide

/-- C10 (amended): a missing profile key does fail at startup — the profile
lookup of the flow file raises before the engine starts — but missing tracker
credentials do not: `pr_node` itself fails at node-execution time whenever
`GITHUB_REPOSITORY` or `GH_TOKEN` is unset, and in the concrete run with no
credentials the failure surfaces inside Publisher only after Planner, Coder
and Validator have executed. -/
theorem startup_vs_node_failures :
    (∀ (profiles : List (String × Dict)) (profile : String) (t : Option String),
      profiles.find? (fun p => p.1 == profile) = none →
      flow_startup profiles profile t = Except.error ()) ∧
    (∀ (s : Dict) (env : PrEnv) (lp : String → List Nat),
      env.githubRepository = none ∨ env.ghToken = none →
      pr_node s env lp = Except.error ()) ∧
    runE demoRunImpl 10 NodeId.plan demoS0 [] =
      some ([NodeId.plan, NodeId.code, NodeId.validate, NodeId.pr],
        Except.error ()) := by
  refine ⟨?_, ?_, by decide⟩
  · intro profiles profile t h
    simp [flow_startup, h]
  · intro s env lp h
    rcases h with h | h
    · cases ht : env.ghToken with
      | none => simp [pr_node, h, ht]
      | some t2 => simp [pr_node, h, ht]
    · cases hr : env.githubRepository with
      | none => simp [pr_node, h, hr]
      | some r => simp [pr_node, h, hr]

/-- Witness for C10's amended theorem: a configuration without the requested
profile fails at startup, and `pr_node` with no credentials fails on its own. -/
theorem startup_vs_node_failures_witness :
    flow_startup [] "component" none = Except.error () ∧
    pr_node [] noCredEnv (fun _ => []) = Except.error () :=
  ⟨startup_vs_node_failures.1 [] "component" none rfl,
   startup_vs_node_failures.2.1 [] noCredEnv (fun _ => []) (Or.inl rfl)⟩
